import Mathlib

/-!
Verification development for the `server_protocol` attribute macro of wl-macro
(src/lib.rs, src/protocol.rs).

The macro reads a protocol schema (protocol.rs: `Protocol`/`Interface`/`Request`/
`Event`/`Arg`/`Enum`/`Entry`/`DataType`) and, for an annotated Rust enum whose
variants pair an interface with a concrete implementing type, emits

  * an opcode dispatcher (`variant_dispatch` arms inside the generated
    `Protocol::request` implementation, lib.rs:76-152 and 298-308),
  * per-interface traits with one method per request and one implemented
    method per event (`interface_traits`, lib.rs:159-288),
  * a `Default` impl constructing the `display`-tagged variant (lib.rs:46-56,
    293-297) and `From` impls for each variant's field type (lib.rs:58-72).

We embed the schema data model, the run-time semantics of the generated
dispatch and event code, and the expansion-time checks performed by the macro.
The surrounding `wl` runtime (message cursor, object table, transmission) is an
external crate; it is modelled here only through the interface the generated
code consumes: a typed word stream for the in-band cursor, an association list
for the object table, a queue for the out-of-band file descriptors.
-/

deriving instance DecidableEq for Except

namespace WlMacro

/-- Wire type tag (protocol.rs:196-207 `DataType`). -/
inductive DataType where
  | int
  | uint
  | fixed
  | string
  | array
  | fd
  | object
  | newId
deriving DecidableEq

/-- One message parameter (protocol.rs:96-105 `Arg`): name, wire type, and the
optional referenced interface for `object`/`new_id` arguments.  The optional
`enum` reference and summary play no role in code generation in lib.rs and are
omitted. -/
structure DArg where
  name : String
  kind : DataType
  interface : Option String
deriving DecidableEq

/-- Client→server message definition (protocol.rs:60-70 `Request`).  Opcode is
the 0-based position in the interface's request list.  The `destructor` flag
and doc fields are not used by the generated dispatch logic. -/
structure DRequest where
  name : String
  args : List DArg
deriving DecidableEq

/-- Server→client message definition (protocol.rs:71-79 `Event`). -/
structure DEvent where
  name : String
  args : List DArg
deriving DecidableEq

/-- One enum constant (protocol.rs:81-88 `Entry`). -/
structure DEntry where
  name : String
  value : Nat
deriving DecidableEq

/-- Named set of integer constants (protocol.rs:51-59 `Enum`). -/
structure DEnum where
  name : String
  entries : List DEntry
deriving DecidableEq

/-- One object type of the protocol (protocol.rs:37-49 `Interface`). -/
structure DInterface where
  name : String
  version : Nat
  requests : List DRequest
  events : List DEvent
  enums : List DEnum
deriving DecidableEq

/-- One variant of the annotated Rust enum: its identifier (CamelCase), the
attribute names on it, and how many unnamed fields it declares.  lib.rs
requires exactly one field, holding the concrete implementing type. -/
structure Variant where
  name : String
  attrs : List String
  fieldCount : Nat
deriving DecidableEq

/-- A variant of the annotated enum paired with the schema interface the macro
resolved for it (lib.rs:76-81: the interface whose name is the snake_case of
the variant identifier).  `vname` is the variant identifier. -/
structure PInterface where
  vname : String
  iface : DInterface
deriving DecidableEq

/-- One typed word of the in-band argument stream, as surfaced by the external
`wl` message cursor (spec §6: `next_i32/next_u32/next_fixed/next_str/
next_array`, and `next_new_id` reading interface name, version and id). -/
inductive WireWord where
  | wu (v : Nat)
  | wi (v : Int)
  | wfix (v : Int)
  | wstr (s : List Nat)
  | warr (s : List Nat)
  | wnew (iface : String) (version : Nat) (id : Nat)
deriving DecidableEq

/-- A decoded argument value as passed to the request handler. `lease` is the
exclusive typed handle produced for an `object` argument; `newid` carries id,
version and interface name of a new object token. -/
inductive Value where
  | int (v : Int)
  | uint (v : Nat)
  | fixed (v : Int)
  | str (s : List Nat)
  | arr (s : List Nat)
  | fd (v : Nat)
  | lease (id : Nat) (payload : Nat)
  | newid (id : Nat) (version : Nat) (iface : String)
deriving DecidableEq

/-- A live object in the runtime object table: the index of the enum variant
it inhabits and an opaque payload standing in for the embedder's concrete
object state. -/
structure LiveObj where
  variant : Nat
  payload : Nat
deriving DecidableEq

/-- Model of the external `wl::server::Client`: the object table (id → live
object) and the out-of-band file-descriptor queue consumed by `next_fd`. -/
structure Client where
  objects : List (Nat × LiveObj)
  fds : List Nat
deriving DecidableEq

/-- A generic lease: an exclusive handle on a live object, as handed to the
generated `Protocol::request` (lib.rs:299). -/
structure GLease where
  id : Nat
  obj : LiveObj
deriving DecidableEq

/-- A wire message: receiver object id, opcode, argument words. -/
structure WMessage where
  object : Nat
  opcode : Nat
  args : List WireWord
deriving DecidableEq

/-- Dispatch-level errors produced by the generated code (`wl::DispatchError`):
`expectedArgument`, `invalidOpcode`, `invalidObject`, `noVariant` appear
literally in the generated token streams; `objectNotFound` and `noFd` model
the failure of the external runtime's `client.lease` and `client.next_fd`
calls, whose errors the generated code propagates with `?`. -/
inductive DispatchError where
  | expectedArgument (ty : String)
  | invalidOpcode (objectId : Nat) (opcode : Nat) (iface : String)
  | invalidObject (expected : String) (found : String)
  | noVariant (enumName : String) (value : Nat)
  | objectNotFound (id : Nat)
  | noFd
deriving DecidableEq

/-- Observable effects of one dispatch: lease acquisitions (`client.lease` in
the generated lease_glue), releases (`client.release` in release_glue), and
the invocation of the embedder's request method, identified by variant index,
opcode and method name, with the decoded argument values in declared order. -/
inductive Effect where
  | acquired (id : Nat)
  | released (id : Nat)
  | invoked (variant : Nat) (opcode : Nat) (method : String) (args : List Value)
deriving DecidableEq

/-- Expansion-time failures of the macro.  lib.rs reports all of these by
panicking (or, for `display`, via `expect`); the constructors record which
check fired and the names it complains about. -/
inductive GenError where
  | displayMissing
  | badVariantFields (variant : String)
  | interfaceNotFound (snakeName : String)
  | schemaMissingInterface (iface : String)
  | missingImplementation (iface : String) (member : String)
deriving DecidableEq

/-- The part of the macro output the display/Default claims observe: the
variant name the generated `Default` impl constructs (with the field's
`Default::default()` value), and the re-emitted enum variants. -/
structure GenOut where
  defaultVariantName : String
  emitted : List Variant
deriving DecidableEq

/-! ### External runtime: message cursor, object table, fd queue -/

/-- Cursor read of an unsigned 32-bit value. -/
def next_u32 : List WireWord → Option (Nat × List WireWord)
  | WireWord.wu v :: s => some (v, s)
  | _ => none

/-- Cursor read of a signed 32-bit value. -/
def next_i32 : List WireWord → Option (Int × List WireWord)
  | WireWord.wi v :: s => some (v, s)
  | _ => none

/-- Cursor read of a signed 24.8 fixed-point value. -/
def next_fixed : List WireWord → Option (Int × List WireWord)
  | WireWord.wfix v :: s => some (v, s)
  | _ => none

/-- Cursor read of a length-prefixed string. -/
def next_str : List WireWord → Option (List Nat × List WireWord)
  | WireWord.wstr v :: s => some (v, s)
  | _ => none

/-- Cursor read of a length-prefixed byte blob. -/
def next_array : List WireWord → Option (List Nat × List WireWord)
  | WireWord.warr v :: s => some (v, s)
  | _ => none

/-- Cursor read of a dynamic new-id: interface name, version and id
(spec §4.2, NewId dynamic row). -/
def next_new_id : List WireWord → Option ((String × Nat × Nat) × List WireWord)
  | WireWord.wnew i v id :: s => some ((i, v, id), s)
  | _ => none

/-- Object-table lookup used by `client.lease(id)`. -/
def Client.lease (c : Client) (id : Nat) : Option LiveObj :=
  (c.objects.find? (fun p => p.1 = id)).map (fun p => p.2)

/-- The payload of the live object registered under `id` (0 if absent; only
used under hypotheses that guarantee presence). -/
def payloadOf (c : Client) (id : Nat) : Nat :=
  match c.objects.find? (fun p => p.1 = id) with
  | some p => p.2.payload
  | none => 0

/-- Schema lookup by interface name.  lib.rs:27-30 inserts every interface of
every protocol into a `HashMap`, so a duplicated name resolves to the last
occurrence; `reverse.find?` reproduces that. -/
def schemaFind (schema : List DInterface) (n : String) : Option DInterface :=
  schema.reverse.find? (fun i => i.name = n)

/-- The version the generated code embeds for a statically-typed new_id
argument (lib.rs:107 `interfaces[interface].version`).  The macro panics at
expansion time when the interface is absent (modelled in
`variant_dispatch_check`); the `getD 0` default is unreachable for code the
macro actually emitted. -/
def schemaVersion (schema : List DInterface) (n : String) : Nat :=
  ((schemaFind schema n).map (fun i => i.version)).getD 0

/-- `generic_lease.interface()` (lib.rs:301, 309-315): the snake_case
interface name of the variant the leased object inhabits. -/
def interface_of (prot : List PInterface) (vi : Nat) : String :=
  ((prot[vi]?).map (fun p => p.iface.name)).getD ""

/-! ### Generated dispatch: lease_glue, handler call, release_glue

`lease_glue` (lib.rs:88-117) decodes one argument per `Arg`, in declared
order.  Every decode failure short-circuits the whole dispatch.  For an
`object` argument the generated code is

    let arg_lease = client.lease(next_u32 ... ?)?;
    let arg = arg_lease.try_map(|p| match p {
        Protocol::Owner(this) => Ok(this),
        _ => Err(wl::DispatchError::InvalidObject(OwnerIdent, self.interface()))
    })?;

i.e. the acquired lease is type-checked against the *owning* variant
(`name = v.ident`, lib.rs:85), not against the `Arg`'s referenced interface,
and the error's second component is written `self.interface()` although the
generated `fn request` (lib.rs:299) has no `self` in scope.  We model that
second component as the dispatch target's interface name, the nearest
`interface`-valued binding in scope (lib.rs:301). -/

/-- Decode of one argument by the generated lease_glue (lib.rs:88-117).
Returns the effects produced so far (lease acquisitions) together with either
the decoded value, the updated client (fd queue) and the remaining stream, or
the error the generated `?` operator propagates. -/
def lease_glue_arg (schema : List DInterface) (vi : Nat) (pi : PInterface)
    (c : Client) (s : List WireWord) (a : DArg) :
    List Effect × Except DispatchError (Value × Client × List WireWord) :=
  match a.kind with
  | DataType.uint =>
    match next_u32 s with
    | some (v, s1) => ([], Except.ok (Value.uint v, c, s1))
    | none => ([], Except.error (DispatchError.expectedArgument "uint"))
  | DataType.int =>
    match next_i32 s with
    | some (v, s1) => ([], Except.ok (Value.int v, c, s1))
    | none => ([], Except.error (DispatchError.expectedArgument "int"))
  | DataType.fixed =>
    match next_fixed s with
    | some (v, s1) => ([], Except.ok (Value.fixed v, c, s1))
    | none => ([], Except.error (DispatchError.expectedArgument "fixed"))
  | DataType.string =>
    match next_str s with
    | some (v, s1) => ([], Except.ok (Value.str v, c, s1))
    | none => ([], Except.error (DispatchError.expectedArgument "string"))
  | DataType.array =>
    match next_array s with
    | some (v, s1) => ([], Except.ok (Value.arr v, c, s1))
    | none => ([], Except.error (DispatchError.expectedArgument "array"))
  | DataType.fd =>
    match c.fds with
    | f :: fr => ([], Except.ok (Value.fd f, { c with fds := fr }, s))
    | [] => ([], Except.error DispatchError.noFd)
  | DataType.object =>
    match next_u32 s with
    | none => ([], Except.error (DispatchError.expectedArgument "object"))
    | some (id, s1) =>
      match c.objects.find? (fun p => p.1 = id) with
      | none => ([], Except.error (DispatchError.objectNotFound id))
      | some q =>
        if q.2.variant = vi then
          ([Effect.acquired id], Except.ok (Value.lease id q.2.payload, c, s1))
        else
          ([Effect.acquired id],
           Except.error (DispatchError.invalidObject pi.vname pi.iface.name))
  | DataType.newId =>
    match a.interface with
    | some iref =>
      match next_u32 s with
      | some (v, s1) =>
        ([], Except.ok (Value.newid v (schemaVersion schema iref) iref, c, s1))
      | none => ([], Except.error (DispatchError.expectedArgument "newid id"))
    | none =>
      match next_new_id s with
      | some (w, s1) => ([], Except.ok (Value.newid w.2.2 w.2.1 w.1, c, s1))
      | none => ([], Except.error (DispatchError.expectedArgument "new_id"))

/-- The full lease_glue sequence: decode the arguments in declared order,
accumulating effects, short-circuiting on the first failure. -/
def lease_glue (schema : List DInterface) (vi : Nat) (pi : PInterface) :
    Client → List WireWord → List DArg →
    List Effect × Except DispatchError (List Value × Client × List WireWord)
  | c, s, [] => ([], Except.ok ([], c, s))
  | c, s, a :: rest =>
    match lease_glue_arg schema vi pi c s a with
    | (e1, Except.error err) => (e1, Except.error err)
    | (e1, Except.ok (v, c1, s1)) =>
      match lease_glue schema vi pi c1 s1 rest with
      | (e2, Except.error err) => (e1 ++ e2, Except.error err)
      | (e2, Except.ok (vs, c2, s2)) => (e1 ++ e2, Except.ok (v :: vs, c2, s2))

/-- The embedder-supplied request handler: receives the variant index, the
opcode, the typed lease on the target (id, payload) and the decoded values;
returns `Option<Self>` (lib.rs:207) — an optional successor lease, with no
error channel. -/
abbrev Handler := Nat → Nat → Nat × Nat → List Value → Option (Nat × Nat)

/-- The generated `wl::server::Protocol::request` (lib.rs:298-308) with the
`variant_dispatch` arms (lib.rs:137-150): match on (target variant, opcode);
a matching arm decodes via lease_glue, invokes the trait method with the
decoded values, releases each object-argument lease after the handler returns
(release_glue, lib.rs:118-128, 147) and wraps the handler's result in `Ok`;
the fallthrough arm (lib.rs:306) fails with `InvalidOpcode(message.object,
opcode, interface)`. -/
def request (schema : List DInterface) (prot : List PInterface) (h : Handler)
    (generic_lease : GLease) (c : Client) (m : WMessage) :
    List Effect × Except DispatchError (Option GLease) :=
  match prot[generic_lease.obj.variant]? with
  | some pi =>
    match pi.iface.requests[m.opcode]? with
    | some req =>
      match lease_glue schema generic_lease.obj.variant pi c m.args req.args with
      | (effs, Except.error e) => (effs, Except.error e)
      | (effs, Except.ok (vals, _, _)) =>
        let res := h generic_lease.obj.variant m.opcode
          (generic_lease.id, generic_lease.obj.payload) vals
        let acq := effs.filterMap
          (fun e => match e with | Effect.acquired i => some i | _ => none)
        (effs
           ++ [Effect.invoked generic_lease.obj.variant m.opcode req.name vals]
           ++ acq.map Effect.released,
         Except.ok (res.map (fun q => ⟨q.1, ⟨generic_lease.obj.variant, q.2⟩⟩)))
    | none =>
      ([], Except.error (DispatchError.invalidOpcode m.object m.opcode
        (interface_of prot generic_lease.obj.variant)))
  | none =>
    ([], Except.error (DispatchError.invalidOpcode m.object m.opcode
      (interface_of prot generic_lease.obj.variant)))

/-! ### Specification-side description of a correctly-shaped argument stream

These functions restate, by structural recursion over the declared argument
list, which streams decode successfully und what the decoded values are.  They
are the comparison point for the dispatch theorems: `shapedArgs` is the
"correctly-shaped" predicate, `specVals` the decoded values in declared order,
`acquiredIds` the object-argument ids acquired during decoding, `clientAfter`
and `specRest` the final fd queue and the unread remainder of the stream. -/

/-- A stream is correctly shaped for an argument list when each in-band
argument finds a word of its wire type (fd arguments instead consume the
out-of-band queue) and each `object` argument's id resolves to a live object
inhabiting the dispatching variant `vi` — the type check the generated code
actually performs (lib.rs:101-104). -/
def shapedArgs (vi : Nat) : Client → List DArg → List WireWord → Bool
  | _, [], _ => true
  | c, a :: rest, s =>
    match a.kind with
    | DataType.fd =>
      match c.fds with
      | [] => false
      | _ :: fr => shapedArgs vi { c with fds := fr } rest s
    | DataType.uint =>
      match s with
      | WireWord.wu _ :: s1 => shapedArgs vi c rest s1
      | _ => false
    | DataType.int =>
      match s with
      | WireWord.wi _ :: s1 => shapedArgs vi c rest s1
      | _ => false
    | DataType.fixed =>
      match s with
      | WireWord.wfix _ :: s1 => shapedArgs vi c rest s1
      | _ => false
    | DataType.string =>
      match s with
      | WireWord.wstr _ :: s1 => shapedArgs vi c rest s1
      | _ => false
    | DataType.array =>
      match s with
      | WireWord.warr _ :: s1 => shapedArgs vi c rest s1
      | _ => false
    | DataType.object =>
      match s with
      | WireWord.wu id :: s1 =>
        (match c.objects.find? (fun p => p.1 = id) with
         | some q => decide (q.2.variant = vi)
         | none => false)
        && shapedArgs vi c rest s1
      | _ => false
    | DataType.newId =>
      match a.interface with
      | some _ =>
        match s with
        | WireWord.wu _ :: s1 => shapedArgs vi c rest s1
        | _ => false
      | none =>
        match s with
        | WireWord.wnew _ _ _ :: s1 => shapedArgs vi c rest s1
        | _ => false

/-- The decoded values of a correctly-shaped stream, in declared order. -/
def specVals (schema : List DInterface) (vi : Nat) :
    Client → List DArg → List WireWord → List Value
  | _, [], _ => []
  | c, a :: rest, s =>
    match a.kind with
    | DataType.fd =>
      match c.fds with
      | [] => []
      | f :: fr => Value.fd f :: specVals schema vi { c with fds := fr } rest s
    | DataType.uint =>
      match s with
      | WireWord.wu v :: s1 => Value.uint v :: specVals schema vi c rest s1
      | _ => []
    | DataType.int =>
      match s with
      | WireWord.wi v :: s1 => Value.int v :: specVals schema vi c rest s1
      | _ => []
    | DataType.fixed =>
      match s with
      | WireWord.wfix v :: s1 => Value.fixed v :: specVals schema vi c rest s1
      | _ => []
    | DataType.string =>
      match s with
      | WireWord.wstr v :: s1 => Value.str v :: specVals schema vi c rest s1
      | _ => []
    | DataType.array =>
      match s with
      | WireWord.warr v :: s1 => Value.arr v :: specVals schema vi c rest s1
      | _ => []
    | DataType.object =>
      match s with
      | WireWord.wu id :: s1 =>
        Value.lease id (payloadOf c id) :: specVals schema vi c rest s1
      | _ => []
    | DataType.newId =>
      match a.interface with
      | some iref =>
        match s with
        | WireWord.wu v :: s1 =>
          Value.newid v (schemaVersion schema iref) iref
            :: specVals schema vi c rest s1
        | _ => []
      | none =>
        match s with
        | WireWord.wnew iref ver id :: s1 =>
          Value.newid id ver iref :: specVals schema vi c rest s1
        | _ => []

/-- The ids of the object-argument leases acquired while decoding, in declared
order — exactly the leases release_glue later releases. -/
def acquiredIds : List DArg → List WireWord → List Nat
  | [], _ => []
  | a :: rest, s =>
    match a.kind with
    | DataType.fd => acquiredIds rest s
    | DataType.object =>
      match s with
      | WireWord.wu id :: s1 => id :: acquiredIds rest s1
      | _ => []
    | _ => acquiredIds rest s.tail

/-- The client state after decoding: only the fd queue shrinks, one entry per
fd argument. -/
def clientAfter : Client → List DArg → Client
  | c, [] => c
  | c, a :: rest =>
    match a.kind with
    | DataType.fd => clientAfter { c with fds := c.fds.tail } rest
    | _ => clientAfter c rest

/-- The unread remainder of the stream after decoding: one word is consumed
per in-band argument. -/
def specRest : List DArg → List WireWord → List WireWord
  | [], s => s
  | a :: rest, s =>
    match a.kind with
    | DataType.fd => specRest rest s
    | _ => specRest rest s.tail

/-- The `ExpectedArgument` type name the generated lease_glue uses for each
in-band read (string literals at lib.rs:93-113).  `fd` arguments never read
the in-band stream; their entry is unused by the truncation theorem. -/
def expectedName (a : DArg) : String :=
  match a.kind, a.interface with
  | DataType.uint, _ => "uint"
  | DataType.int, _ => "int"
  | DataType.fixed, _ => "fixed"
  | DataType.string, _ => "string"
  | DataType.array, _ => "array"
  | DataType.object, _ => "object"
  | DataType.newId, some _ => "newid id"
  | DataType.newId, none => "new_id"
  | DataType.fd, _ => "fd"

/-- Whether an effect is a handler invocation. -/
def isInvoke : Effect → Bool
  | Effect.invoked _ _ _ _ => true
  | _ => false

/-! ### Generated event methods (lib.rs:210-278)

The generated event method allocates `wl::Message { object: self.id(),
opcode, args: vec![] }`, pushes each argument in declared order per `arg_glue`
(lib.rs:245-258) and hands the message to `client.send`.  For an `fd` argument
arg_glue emits the bare token `!` (lib.rs:254), which is not a Rust
expression: the method body for an event carrying an fd argument does not
compile and hence has no semantics — modelled as `none`. -/

/-- One `arg_glue` push (lib.rs:248-257): appends the encoding of the value to
the message words, or `none` where the emitted tokens are not valid code. -/
def arg_glue (a : DArg) (v : Value) (acc : List WireWord) : Option (List WireWord) :=
  match a.kind, v with
  | DataType.int, Value.int x => some (acc ++ [WireWord.wi x])
  | DataType.uint, Value.uint x => some (acc ++ [WireWord.wu x])
  | DataType.fixed, Value.fixed x => some (acc ++ [WireWord.wfix x])
  | DataType.array, Value.arr x => some (acc ++ [WireWord.warr x])
  | DataType.string, Value.str x => some (acc ++ [WireWord.wstr x])
  | DataType.fd, _ => none
  | DataType.object, Value.lease id _ => some (acc ++ [WireWord.wu id])
  | DataType.newId, Value.newid id _ _ => some (acc ++ [WireWord.wu id])
  | _, _ => none

/-- Fold of arg_glue over the declared arguments and supplied values. -/
def arg_glue_all : List (DArg × Value) → List WireWord → Option (List WireWord)
  | [], acc => some acc
  | (a, v) :: rest, acc =>
    match arg_glue a v acc with
    | some acc1 => arg_glue_all rest acc1
    | none => none

/-- The message built by the generated event method for the event at 0-based
declaration index `opcode` on the object with id `selfId` (lib.rs:262-276);
the method then transmits exactly this message via `client.send`, whose result
is the method's result. -/
def event_message (selfId : Nat) (opcode : Nat) (ev : DEvent) (vals : List Value) :
    Option WMessage :=
  if ev.args.length = vals.length then
    match arg_glue_all (ev.args.zip vals) [] with
    | some ws => some ⟨selfId, opcode, ws⟩
    | none => none
  else none

/-! ### Expansion-time checks (the macro's panics)

lib.rs reports every expansion-time failure by panicking.  `server_protocol`
models which panic fires first, following the order in which the lazy
iterators are consumed by the final `quote!` block (lib.rs:290-320):
the eager `display` check (lib.rs:46), then the `variant_dispatch` arms
(schema lookups, lib.rs:79-80 and 107), then the `From` impls' field checks
(lib.rs:58-63), then `interface_traits` (lib.rs:159-288). -/

/-- heck's SnakeCase on an ASCII CamelCase identifier. -/
def snakeChars : List Char → List Char
  | [] => []
  | ch :: rest =>
    if ch.isUpper then '_' :: ch.toLower :: snakeChars rest
    else ch :: snakeChars rest

/-- `heck::SnakeCase::to_snake_case` as used on variant identifiers
(lib.rs:78, 156, 161). -/
def toSnake (s : String) : String :=
  String.mk (match snakeChars s.data with
    | '_' :: r => r
    | r => r)

/-- heck's CamelCase on an ASCII snake_case identifier (capitalize-next flag). -/
def camelChars : List Char → Bool → List Char
  | [], _ => []
  | '_' :: rest, _ => camelChars rest true
  | ch :: rest, true => ch.toUpper :: camelChars rest false
  | ch :: rest, false => ch :: camelChars rest false

/-- `heck::CamelCase::to_camel_case` as used on referenced interface names
(lib.rs:184, 225). -/
def toCamel (s : String) : String :=
  String.mk (camelChars s.data true)

/-- The first variant tagged `#` `[display]` (lib.rs:46: `find` over variants,
`any` over attributes). -/
def display_variant (vs : List Variant) : Option Variant :=
  vs.find? (fun v => decide ("display" ∈ v.attrs))

/-- Remove the first occurrence of an attribute name (lib.rs:48-56: the strip
removes the attribute at the first matching index of each variant). -/
def removeFirstAttr (x : String) : List String → List String
  | [] => []
  | y :: rest => if y = x then rest else y :: removeFirstAttr x rest

/-- The re-emitted enum: each variant with its first `display` attribute
removed (lib.rs:48-56). -/
def stripDisplay (vs : List Variant) : List Variant :=
  vs.map (fun v => { v with attrs := removeFirstAttr "display" v.attrs })

/-- Checks performed while the `variant_dispatch` arms for one variant are
generated: the variant's snake_case name must be a schema interface
(lib.rs:79-80), and every statically-typed new_id argument's referenced
interface must be in the schema (lib.rs:107, map index). -/
def variant_dispatch_check (schema : List DInterface) (v : Variant) :
    Except GenError Unit :=
  match schemaFind schema (toSnake v.name) with
  | none => Except.error (GenError.interfaceNotFound (toSnake v.name))
  | some i =>
    i.requests.forM (fun r => r.args.forM (fun a =>
      match a.kind, a.interface with
      | DataType.newId, some iref =>
        match schemaFind schema iref with
        | some _ => Except.ok ()
        | none => Except.error (GenError.schemaMissingInterface iref)
      | _, _ => Except.ok ()))

/-- Check performed while the `From` impl for one variant is generated
(lib.rs:58-63): the variant must have exactly one unnamed field. -/
def into_protocol_check (v : Variant) : Except GenError Unit :=
  if v.fieldCount = 1 then Except.ok ()
  else Except.error (GenError.badVariantFields v.name)

/-- Check performed for one request/event argument while `interface_traits`
is generated (lib.rs:181-196 for requests, 222-237 for events): an `object`
argument naming an interface requires a variant whose identifier is the
CamelCase of that name (panic at lib.rs:185/226 otherwise), and that variant
must have exactly one field (lib.rs:186-191/227-232).  `new_id` arguments
produce the type `wl::NewId` (lib.rs:197/238) and require nothing. -/
def arg_trait_check (vs : List Variant) (owner : String) (member : String)
    (a : DArg) : Except GenError Unit :=
  match a.kind, a.interface with
  | DataType.object, some iref =>
    match vs.find? (fun w => w.name = toCamel iref) with
    | none => Except.error (GenError.missingImplementation iref member)
    | some w =>
      if w.fieldCount = 1 then Except.ok ()
      else Except.error (GenError.badVariantFields owner)
  | _, _ => Except.ok ()

/-- Checks performed while the trait for one variant is generated
(lib.rs:159-288): schema lookup again (lib.rs:161-163), then the argument
checks over all requests and then all events. -/
def interface_traits_check (schema : List DInterface) (vs : List Variant)
    (v : Variant) : Except GenError Unit :=
  match schemaFind schema (toSnake v.name) with
  | none => Except.error (GenError.interfaceNotFound (toSnake v.name))
  | some i =>
    match i.requests.forM (fun r => r.args.forM (arg_trait_check vs v.name r.name)) with
    | Except.error e => Except.error e
    | Except.ok _ =>
      i.events.forM (fun e => e.args.forM (arg_trait_check vs v.name e.name))

/-- The expansion-time behaviour of the `server_protocol` macro (lib.rs:22-321)
as far as the claims observe it: either the first panic, or the display/Default
related output.  On success the generated `Default` impl constructs
`Self::DisplayVariant(Default::default())` (lib.rs:293-297). -/
def server_protocol (schema : List DInterface) (vs : List Variant) :
    Except GenError GenOut :=
  match display_variant vs with
  | none => Except.error GenError.displayMissing
  | some dv =>
    match vs.forM (variant_dispatch_check schema) with
    | Except.error e => Except.error e
    | Except.ok _ =>
      match vs.forM into_protocol_check with
      | Except.error e => Except.error e
      | Except.ok _ =>
        match vs.forM (interface_traits_check schema vs) with
        | Except.error e => Except.error e
        | Except.ok _ => Except.ok ⟨dv.name, stripDisplay vs⟩

/-! ### Enum wrapper types

lib.rs generates no code for the schema's `Enum`/`Entry` declarations
(protocol.rs:51-59, 81-88 are deserialized but unused by the emitted token
streams), so the validating wrapper is modelled from the spec. -/

/-- Modelled from the spec: the enum-wrapper codegen is absent from src (only
the `Enum`/`Entry` schema declarations exist, protocol.rs:51-59/81-88).  Per
§4.3 the wrapper holds one named constant per Entry. -/
def enumConstants (e : DEnum) : List (String × Nat) :=
  e.entries.map (fun en => (en.name, en.value))

/-- Modelled from the spec: the validating constructor `new(value)` of the
generated enum wrapper (§4.3, §7): membership test over the declared entries,
failing with `NoVariant` carrying the enum name and the offending value. -/
def enum_new (e : DEnum) (value : Nat) : Except DispatchError Nat :=
  match e.entries.find? (fun en => en.value = value) with
  | some _ => Except.ok value
  | none => Except.error (DispatchError.noVariant e.name value)

/-! ### Concrete protocol instances used by the witnesses and counterexamples -/

/-- A surface interface: one request `damage(x: int)`. -/
def surfaceIface : DInterface :=
  ⟨"surface", 3, [⟨"damage", [⟨"x", DataType.int, none⟩]⟩], [], []⟩

/-- A compositor interface: `create_surface(id: new_id<surface>)` at opcode 0
and `attach(target: object<surface>, x: uint)` at opcode 1. -/
def compositorIface : DInterface :=
  ⟨"compositor", 4,
   [⟨"create_surface", [⟨"id", DataType.newId, some "surface"⟩]⟩,
    ⟨"attach", [⟨"target", DataType.object, some "surface"⟩,
                ⟨"x", DataType.uint, none⟩]⟩],
   [], []⟩

/-- A keyboard interface with the event `keymap(fd: fd)` at opcode 0. -/
def keyboardIface : DInterface :=
  ⟨"keyboard", 1, [], [⟨"keymap", [⟨"fd", DataType.fd, none⟩]⟩], []⟩

def schemaD : List DInterface := [compositorIface, surfaceIface]

/-- The resolved pairing for an enum `{ Compositor(C), Surface(S) }`. -/
def protD : List PInterface :=
  [⟨"Compositor", compositorIface⟩, ⟨"Surface", surfaceIface⟩]

def piD : PInterface := ⟨"Compositor", compositorIface⟩

def attachReq : DRequest :=
  ⟨"attach", [⟨"target", DataType.object, some "surface"⟩,
              ⟨"x", DataType.uint, none⟩]⟩

/-- Object table: id 1 and 2 are compositors (variant 0), id 5 is a surface
(variant 1); one fd is queued. -/
def clientD : Client := ⟨[(1, ⟨0, 10⟩), (2, ⟨0, 20⟩), (5, ⟨1, 50⟩)], [7]⟩

/-- The dispatch target: the compositor object with id 1. -/
def leaseD : GLease := ⟨1, ⟨0, 10⟩⟩

/-- A handler that retains nothing. -/
def handler0 : Handler := fun _ _ _ _ => none

/-- A handler that returns a successor lease (id 3, payload 30). -/
def handler1 : Handler := fun _ _ _ _ => some (3, 30)

/-- attach with both arguments present (object id 2 is a compositor, so it
passes the owner-variant type check the generated code performs). -/
def msgAttachFull : WMessage := ⟨1, 1, [WireWord.wu 2, WireWord.wu 9]⟩

/-- attach truncated after its object argument. -/
def msgAttachTrunc : WMessage := ⟨1, 1, [WireWord.wu 2]⟩

/-- attach whose object argument is the surface with id 5 — the live object
matches the argument's referenced interface `surface`. -/
def msgAttachSurface : WMessage := ⟨1, 1, [WireWord.wu 5, WireWord.wu 9]⟩

/-- The keymap event. -/
def keymapEvent : DEvent := ⟨"keymap", [⟨"fd", DataType.fd, none⟩]⟩

/-- Schema for the generation counterexample: compositor declares a
statically-typed new_id referencing surface. -/
def compositorG : DInterface :=
  ⟨"compositor", 4, [⟨"create_surface", [⟨"id", DataType.newId, some "surface"⟩]⟩], [], []⟩

def surfaceG : DInterface := ⟨"surface", 3, [], [], []⟩

def schemaG : List DInterface := [compositorG, surfaceG]

/-- Variant list implementing only the compositor. -/
def vsG : List Variant := [⟨"Compositor", ["display"], 1⟩]

/-- Variant list for the display/Default witness. -/
def vsW : List Variant := [⟨"Surface", [], 1⟩, ⟨"Compositor", ["display"], 1⟩]

def schemaW : List DInterface := [compositorG, surfaceG]

/-- Concrete enum for the enum-wrapper witness. -/
def buttonStateEnum : DEnum :=
  ⟨"button_state", [⟨"released", 0⟩, ⟨"pressed", 1⟩]⟩

/-! ### Helper lemmas -/

/-- On a correctly-shaped stream, lease_glue succeeds: its effects are exactly
the object-argument acquisitions in declared order, and it returns the
structurally decoded values, the client with the consumed fds removed, and the
unread remainder of the stream. -/
theorem lease_glue_shaped (schema : List DInterface) (vi : Nat) (pi : PInterface) :
    ∀ (args : List DArg) (c : Client) (s : List WireWord),
      shapedArgs vi c args s = true →
      lease_glue schema vi pi c s args =
        ((acquiredIds args s).map Effect.acquired,
         Except.ok (specVals schema vi c args s, clientAfter c args, specRest args s)) := by
  intro args
  induction args with
  | nil => intro c s _; rfl
  | cons a rest ih =>
    intro c s hs
    obtain ⟨nm, k, ifc⟩ := a
    cases k
    case int =>
      cases s with
      | nil => simp [shapedArgs] at hs
      | cons w s1 =>
        cases w <;> simp [shapedArgs] at hs
        simp [lease_glue, lease_glue_arg, next_i32, specVals, acquiredIds,
              specRest, clientAfter, ih c s1 hs]
    case uint =>
      cases s with
      | nil => simp [shapedArgs] at hs
      | cons w s1 =>
        cases w <;> simp [shapedArgs] at hs
        simp [lease_glue, lease_glue_arg, next_u32, specVals, acquiredIds,
              specRest, clientAfter, ih c s1 hs]
    case fixed =>
      cases s with
      | nil => simp [shapedArgs] at hs
      | cons w s1 =>
        cases w <;> simp [shapedArgs] at hs
        simp [lease_glue, lease_glue_arg, next_fixed, specVals, acquiredIds,
              specRest, clientAfter, ih c s1 hs]
    case string =>
      cases s with
      | nil => simp [shapedArgs] at hs
      | cons w s1 =>
        cases w <;> simp [shapedArgs] at hs
        simp [lease_glue, lease_glue_arg, next_str, specVals, acquiredIds,
              specRest, clientAfter, ih c s1 hs]
    case array =>
      cases s with
      | nil => simp [shapedArgs] at hs
      | cons w s1 =>
        cases w <;> simp [shapedArgs] at hs
        simp [lease_glue, lease_glue_arg, next_array, specVals, acquiredIds,
              specRest, clientAfter, ih c s1 hs]
    case fd =>
      obtain ⟨objs, fds⟩ := c
      cases fds with
      | nil => simp [shapedArgs] at hs
      | cons f fr =>
        simp only [shapedArgs] at hs
        simp [lease_glue, lease_glue_arg, specVals, acquiredIds,
              specRest, clientAfter, ih ⟨objs, fr⟩ s hs]
    case object =>
      cases s with
      | nil => simp [shapedArgs] at hs
      | cons w s1 =>
        cases w <;> simp only [shapedArgs] at hs <;> try simp at hs
        rename_i id
        rcases hf : c.objects.find? (fun p => p.1 = id) with _ | q
        · rw [hf] at hs; simp at hs
        · rw [hf] at hs
          simp only [Bool.and_eq_true, decide_eq_true_eq] at hs
          obtain ⟨hv, hrest⟩ := hs
          simp [lease_glue, lease_glue_arg, next_u32, hf, hv, payloadOf,
                specVals, acquiredIds, specRest, clientAfter, ih c s1 hrest]
    case newId =>
      cases ifc with
      | some iref =>
        cases s with
        | nil => simp [shapedArgs] at hs
        | cons w s1 =>
          cases w <;> simp [shapedArgs] at hs
          simp [lease_glue, lease_glue_arg, next_u32, specVals, acquiredIds,
                specRest, clientAfter, ih c s1 hs]
      | none =>
        cases s with
        | nil => simp [shapedArgs] at hs
        | cons w s1 =>
          cases w <;> simp [shapedArgs] at hs
          simp [lease_glue, lease_glue_arg, next_new_id, specVals, acquiredIds,
                specRest, clientAfter, ih c s1 hs]

/-- lease_glue over a concatenated argument list runs the prefix first and, if
it succeeds, continues with the suffix on the updated client and stream. -/
theorem lease_glue_append (schema : List DInterface) (vi : Nat) (pi : PInterface) :
    ∀ (xs ys : List DArg) (c : Client) (s : List WireWord),
      lease_glue schema vi pi c s (xs ++ ys) =
        match lease_glue schema vi pi c s xs with
        | (e1, Except.error err) => (e1, Except.error err)
        | (e1, Except.ok (vs, c1, s1)) =>
          match lease_glue schema vi pi c1 s1 ys with
          | (e2, Except.error err) => (e1 ++ e2, Except.error err)
          | (e2, Except.ok (vs2, c2, s2)) => (e1 ++ e2, Except.ok (vs ++ vs2, c2, s2)) := by
  intro xs
  induction xs with
  | nil =>
    intro ys c s
    rcases hys : lease_glue schema vi pi c s ys with ⟨e2, r2⟩
    cases r2 with
    | error err => simp [lease_glue, hys]
    | ok t => rcases t with ⟨vs2, c2, s2⟩; simp [lease_glue, hys]
  | cons a xs ih =>
    intro ys c s
    simp only [List.cons_append, lease_glue]
    rcases ha : lease_glue_arg schema vi pi c s a with ⟨e1, r1⟩
    cases r1 with
    | error err => simp
    | ok t =>
      rcases t with ⟨v, c1, s1⟩
      simp only [List.append_eq]
      rw [ih]
      rcases hxs : lease_glue schema vi pi c1 s1 xs with ⟨e2, r2⟩
      cases r2 with
      | error err => simp
      | ok t2 =>
        rcases t2 with ⟨vs, c2, s2⟩
        rcases hys : lease_glue schema vi pi c2 s2 ys with ⟨e3, r3⟩
        cases r3 with
        | error err => simp [hys, List.append_assoc]
        | ok t3 => rcases t3 with ⟨vs3, c3, s3⟩; simp [hys, List.append_assoc]

/-- On an exhausted stream, decoding any in-band argument fails with
`ExpectedArgument` carrying that argument's type name. -/
theorem lease_glue_arg_nil (schema : List DInterface) (vi : Nat) (pi : PInterface)
    (c : Client) (a : DArg) (hfd : a.kind ≠ DataType.fd) :
    lease_glue_arg schema vi pi c [] a =
      ([], Except.error (DispatchError.expectedArgument (expectedName a))) := by
  obtain ⟨nm, k, ifc⟩ := a
  cases k <;> try rfl
  case fd => exact absurd rfl hfd
  case newId => cases ifc <;> rfl

/-- Extracting the acquisition ids back out of an acquisition effect list. -/
theorem filterMap_acquired (ids : List Nat) :
    (ids.map Effect.acquired).filterMap
      (fun e => match e with | Effect.acquired i => some i | _ => none) = ids := by
  induction ids with
  | nil => rfl
  | cons i rest ih => simp [List.filterMap_cons, ih]

/-- Variant of `filterMap_acquired` in the composed form simp normalizes to. -/
theorem filterMap_acquired_comp (ids : List Nat) :
    ids.filterMap
      ((fun e => match e with | Effect.acquired i => some i | _ => none)
        ∘ Effect.acquired) = ids := by
  induction ids with
  | nil => rfl
  | cons i rest ih => simp [List.filterMap_cons, Function.comp, ih]

/-- Acquisition effects are not invocations. -/
theorem filter_isInvoke_acquired (ids : List Nat) :
    (ids.map Effect.acquired).filter isInvoke = [] := by
  induction ids with
  | nil => rfl
  | cons i rest ih => simp [List.filter_cons, isInvoke, ih]

/-- Release effects are not invocations. -/
theorem filter_isInvoke_released (ids : List Nat) :
    (ids.map Effect.released).filter isInvoke = [] := by
  induction ids with
  | nil => rfl
  | cons i rest ih => simp [List.filter_cons, isInvoke, ih]

/-- Master description of a successful dispatch: with the target's interface
resolved, the opcode naming a declared request and a correctly-shaped stream,
the generated `request` acquires the object-argument leases in declared order,
invokes the request's trait method once with the decoded values, releases the
acquired leases, and wraps the handler's optional result in `Ok`. -/
theorem request_shaped (schema : List DInterface) (prot : List PInterface)
    (h : Handler) (l : GLease) (c : Client) (m : WMessage)
    (pi : PInterface) (req : DRequest)
    (hpi : prot[l.obj.variant]? = some pi)
    (hreq : pi.iface.requests[m.opcode]? = some req)
    (hs : shapedArgs l.obj.variant c req.args m.args = true) :
    request schema prot h l c m =
      ((acquiredIds req.args m.args).map Effect.acquired
         ++ [Effect.invoked l.obj.variant m.opcode req.name
               (specVals schema l.obj.variant c req.args m.args)]
         ++ (acquiredIds req.args m.args).map Effect.released,
       Except.ok ((h l.obj.variant m.opcode (l.id, l.obj.payload)
           (specVals schema l.obj.variant c req.args m.args)).map
         (fun q => ⟨q.1, ⟨l.obj.variant, q.2⟩⟩))) := by
  unfold request
  simp only [hpi]
  simp only [hreq]
  rw [lease_glue_shaped schema l.obj.variant pi req.args c m.args hs]
  simp [filterMap_acquired, filterMap_acquired_comp]

/-- Removing the sole occurrence of an attribute leaves a list without it. -/
theorem removeFirstAttr_not_mem (x : String) :
    ∀ l : List String, l.count x ≤ 1 → x ∉ removeFirstAttr x l := by
  intro l
  induction l with
  | nil => intro _ h; exact absurd h (List.not_mem_nil x)
  | cons y rest ih =>
    intro hc
    by_cases hxy : y = x
    · subst hxy
      have h0 : rest.count y = 0 := by
        have := List.count_cons_self y rest ▸ hc
        omega
      simpa [removeFirstAttr] using List.count_eq_zero.mp h0
    · have hc1 : rest.count x ≤ 1 := by
        have := List.count_cons_of_ne (fun hxe => hxy hxe.symm) rest
        omega
      simp only [removeFirstAttr, if_neg hxy]
      intro hmem
      rcases List.mem_cons.mp hmem with h1 | h1
      · exact hxy h1.symm
      · exact ih hc1 h1

/-! ### Claims -/

/-- Argument streams whose decode succeeded yield only acquisition effects —
no invocation. -/
theorem all_not_isInvoke_acquired (ids : List Nat) :
    (ids.map Effect.acquired).all (fun e => !isInvoke e) = true := by
  induction ids with
  | nil => rfl
  | cons i rest ih => simp_all [isInvoke]

/-- C1: For every interface in the annotated protocol enum and every Request R
declared on it at 0-based declaration index k, dispatching a message whose
target object is of that interface and whose opcode equals k, with a
correctly-shaped argument stream, invokes exactly the generated trait method
for R, passing the decoded argument values in the declared argument order. -/
theorem C1_dispatch_invokes_request (schema : List DInterface)
    (prot : List PInterface) (h : Handler) (l : GLease) (c : Client)
    (m : WMessage) (pi : PInterface) (req : DRequest)
    (hpi : prot[l.obj.variant]? = some pi)
    (hreq : pi.iface.requests[m.opcode]? = some req)
    (hs : shapedArgs l.obj.variant c req.args m.args = true) :
    (request schema prot h l c m).1.filter isInvoke
      = [Effect.invoked l.obj.variant m.opcode req.name
           (specVals schema l.obj.variant c req.args m.args)] := by
  rw [request_shaped schema prot h l c m pi req hpi hreq hs]
  simp [List.filter_append, filter_isInvoke_acquired, filter_isInvoke_released,
        isInvoke]

/-- C1 witness: dispatching `attach` (opcode 1) on the compositor object with
stream `[object 2, uint 9]` invokes exactly the attach method with the typed
lease on object 2 and the integer 9, in declared order. -/
theorem C1_witness :
    (request schemaD protD handler0 leaseD clientD msgAttachFull).1.filter isInvoke
      = [Effect.invoked 0 1 "attach" [Value.lease 2 20, Value.uint 9]] := by
  have h := C1_dispatch_invokes_request schemaD protD handler0 leaseD clientD
    msgAttachFull piD attachReq (by decide) (by decide) (by decide)
  exact h.trans (by decide)

/-- C3: For every Request and every truncated argument stream, dispatch
decodes arguments strictly in declared order, fails with `ExpectedArgument`
naming the first argument type that could not be read, and the embedder's
request handler method is never invoked.  The truncation hypotheses: the
first `j` arguments decode from the stream, exhausting it, with argument `j`
still undecoded; `j` is in-band (an fd argument reads the out-of-band
channel, not the argument stream, so it cannot be the first unreadable one). -/
theorem C3_truncated_stream (schema : List DInterface) (prot : List PInterface)
    (h : Handler) (l : GLease) (c : Client) (m : WMessage)
    (pi : PInterface) (req : DRequest) (j : Nat)
    (hpi : prot[l.obj.variant]? = some pi)
    (hreq : pi.iface.requests[m.opcode]? = some req)
    (hj : j < req.args.length)
    (hfd : (req.args.get ⟨j, hj⟩).kind ≠ DataType.fd)
    (hsp : shapedArgs l.obj.variant c (req.args.take j) m.args = true)
    (hrest : specRest (req.args.take j) m.args = []) :
    request schema prot h l c m
      = ((acquiredIds (req.args.take j) m.args).map Effect.acquired,
         Except.error (DispatchError.expectedArgument
           (expectedName (req.args.get ⟨j, hj⟩))))
    ∧ (request schema prot h l c m).1.all (fun e => !isInvoke e) = true := by
  have hlg : lease_glue schema l.obj.variant pi c m.args req.args
      = ((acquiredIds (req.args.take j) m.args).map Effect.acquired,
         Except.error (DispatchError.expectedArgument
           (expectedName (req.args.get ⟨j, hj⟩)))) := by
    conv_lhs => rw [← List.take_append_drop j req.args]
    rw [lease_glue_append schema l.obj.variant pi (req.args.take j)
          (req.args.drop j) c m.args]
    rw [lease_glue_shaped schema l.obj.variant pi (req.args.take j) c m.args hsp]
    rw [hrest]
    rw [List.drop_eq_getElem_cons hj]
    simp only [lease_glue]
    have hnil := lease_glue_arg_nil schema l.obj.variant pi
      (clientAfter c (req.args.take j)) (req.args.get ⟨j, hj⟩) hfd
    rw [List.get_eq_getElem] at hnil
    rw [hnil]
    simp
  have hmain : request schema prot h l c m
      = ((acquiredIds (req.args.take j) m.args).map Effect.acquired,
         Except.error (DispatchError.expectedArgument
           (expectedName (req.args.get ⟨j, hj⟩)))) := by
    unfold request
    simp only [hpi]
    simp only [hreq]
    rw [hlg]
  exact ⟨hmain, by rw [hmain]; exact all_not_isInvoke_acquired _⟩

/-- C3 witness: `attach` with the stream truncated after its object argument
fails with `ExpectedArgument("uint")` — the first type that could not be read
— and the handler is never invoked. -/
theorem C3_witness :
    request schemaD protD handler0 leaseD clientD msgAttachTrunc
      = ([Effect.acquired 2],
         Except.error (DispatchError.expectedArgument "uint"))
    ∧ (request schemaD protD handler0 leaseD clientD msgAttachTrunc).1.all
        (fun e => !isInvoke e) = true := by
  have h := C3_truncated_stream schemaD protD handler0 leaseD clientD
    msgAttachTrunc piD attachReq 1 (by decide) (by decide) (by decide)
    (by decide) (by decide) (by decide)
  exact ⟨h.1.trans (by decide), h.2⟩

/-- C4: For every incoming message whose opcode does not equal the 0-based
declaration index of any Request of the target object's interface, dispatch
terminates with an `InvalidOpcode` error carrying the target object's id, the
offending opcode, and the interface name, and no handler is invoked (the
effect list is empty). -/
theorem C4_invalid_opcode (schema : List DInterface) (prot : List PInterface)
    (h : Handler) (l : GLease) (c : Client) (m : WMessage) (pi : PInterface)
    (hpi : prot[l.obj.variant]? = some pi)
    (hop : pi.iface.requests[m.opcode]? = none)
    (hid : l.id = m.object) :
    request schema prot h l c m
      = ([], Except.error
          (DispatchError.invalidOpcode l.id m.opcode pi.iface.name)) := by
  unfold request
  simp only [hpi]
  simp only [hop]
  simp [interface_of, hpi, hid]

/-- C4 witness: opcode 9 on the compositor object (which declares requests 0
and 1) fails with `InvalidOpcode(1, 9, "compositor")` and no effects. -/
theorem C4_witness :
    request schemaD protD handler0 leaseD clientD ⟨1, 9, []⟩
      = ([], Except.error (DispatchError.invalidOpcode 1 9 "compositor")) := by
  have h := C4_invalid_opcode schemaD protD handler0 leaseD clientD ⟨1, 9, []⟩
    piD (by decide) (by decide) (by decide)
  exact h.trans (by decide)

/-- C5 (evaluation at the failing input): request `attach` declares
`target: object` referencing interface `surface`; the live argument object
(id 5) inhabits exactly the `Surface` variant, yet dispatch rejects it,
because the generated try_map (lib.rs:101-104) compares the argument against
the *owning* variant (`Compositor`) instead of the referenced interface, and
the emitted error names the owner as "expected" (and writes
`self.interface()` for "found", though the generated `fn request` has no
`self`; modelled as the dispatch target's interface).  The claim — and
lib.rs's own trait signature (lib.rs:192: `Lease<Surface-impl>`), and its
§4.2 rule of no type check when no interface is named — require the opposite
behaviour. -/
theorem C5_owner_typecheck_eval :
    request schemaD protD handler0 leaseD clientD msgAttachSurface
      = ([Effect.acquired 5],
         Except.error (DispatchError.invalidObject "Compositor" "compositor")) := by
  decide

/-- C6 counterexample: dispatching `attach` with the stream truncated after
its object argument acquires the lease on object 2, fails decoding the second
argument, and the generated dispatch performs no release — `released 2` is
absent from the effect trace — refuting release on every exit path. -/
theorem C6_counterexample :
    request schemaD protD handler0 leaseD clientD msgAttachTrunc
      = ([Effect.acquired 2],
         Except.error (DispatchError.expectedArgument "uint"))
    ∧ ((request schemaD protD handler0 leaseD clientD msgAttachTrunc).1.contains
        (Effect.released 2)) = false := by
  decide

/-- C6 (amended): whenever decoding succeeds and the handler is invoked, every
object-argument lease acquired during decoding is released after the handler
returns, in declared order, regardless of the handler's result (the handler
is universally quantified); on a decode failure the generated dispatch code
performs no release of the already-acquired leases. -/
theorem C6_release_after_handler (schema : List DInterface)
    (prot : List PInterface) (h : Handler) (l : GLease) (c : Client)
    (m : WMessage) (pi : PInterface) (req : DRequest)
    (hpi : prot[l.obj.variant]? = some pi)
    (hreq : pi.iface.requests[m.opcode]? = some req)
    (hs : shapedArgs l.obj.variant c req.args m.args = true) :
    (request schema prot h l c m).1
      = (acquiredIds req.args m.args).map Effect.acquired
        ++ [Effect.invoked l.obj.variant m.opcode req.name
             (specVals schema l.obj.variant c req.args m.args)]
        ++ (acquiredIds req.args m.args).map Effect.released := by
  rw [request_shaped schema prot h l c m pi req hpi hreq hs]

/-- C6 witness: a full `attach` dispatch acquires lease 2, invokes the
handler, then releases lease 2. -/
theorem C6_witness :
    (request schemaD protD handler0 leaseD clientD msgAttachFull).1
      = [Effect.acquired 2,
         Effect.invoked 0 1 "attach" [Value.lease 2 20, Value.uint 9],
         Effect.released 2] := by
  have h := C6_release_after_handler schemaD protD handler0 leaseD clientD
    msgAttachFull piD attachReq (by decide) (by decide) (by decide)
  exact h.trans (by decide)

/-- C9 counterexample: at a concrete dispatch, "some handler outcome makes the
dispatch result an error" is false: the generated request method returns
`Option<Self>` (lib.rs:207) — it has no error channel — and dispatch wraps
whatever the method returns in `Ok` (lib.rs:148), so no application error can
be propagated as the dispatch result. -/
theorem C9_counterexample :
    (∃ r : Option (Nat × Nat), ∃ er : DispatchError,
       (request schemaD protD (fun _ _ _ _ => r) leaseD clientD msgAttachFull).2
         = Except.error er) = False := by
  apply eq_false
  rintro ⟨r, er, hco⟩
  rw [request_shaped schemaD protD (fun _ _ _ _ => r) leaseD clientD
        msgAttachFull piD attachReq (by decide) (by decide) (by decide)] at hco
  simp at hco

/-- C9 (amended): the generated request method returns an optional successor
object (`Option<Self>`, lib.rs:207) with no error channel; dispatch invokes
it once with the decoded arguments and returns success carrying the method's
result, re-wrapped into the protocol enum (lib.rs:146-148). -/
theorem C9_result_propagated (schema : List DInterface)
    (prot : List PInterface) (h : Handler) (l : GLease) (c : Client)
    (m : WMessage) (pi : PInterface) (req : DRequest)
    (hpi : prot[l.obj.variant]? = some pi)
    (hreq : pi.iface.requests[m.opcode]? = some req)
    (hs : shapedArgs l.obj.variant c req.args m.args = true) :
    (request schema prot h l c m).2
      = Except.ok ((h l.obj.variant m.opcode (l.id, l.obj.payload)
          (specVals schema l.obj.variant c req.args m.args)).map
        (fun q => (⟨q.1, ⟨l.obj.variant, q.2⟩⟩ : GLease))) := by
  rw [request_shaped schema prot h l c m pi req hpi hreq hs]

/-- C9 witness: a handler returning the successor lease (3, 30) yields the
dispatch result `Ok(Some(lease 3 on a Compositor with payload 30))`. -/
theorem C9_witness :
    (request schemaD protD handler1 leaseD clientD msgAttachFull).2
      = Except.ok (some ⟨3, ⟨0, 30⟩⟩) := by
  have h := C9_result_propagated schemaD protD handler1 leaseD clientD
    msgAttachFull piD attachReq (by decide) (by decide) (by decide)
  exact h.trans (by decide)

/-- C2 (evaluation at the failing input): the generated event method for
`keymap(fd)` builds no message: its arg_glue for the fd argument is the bare
placeholder token `!` (lib.rs:254), not a write to the out-of-band channel
(contrast protocol.rs:142 `push_fd` in the unused pusher), so the emitted
method body is not valid code and transmits nothing. -/
theorem C2_fd_event_eval :
    event_message 4 0 keymapEvent [Value.fd 3] = none := by decide

/-- C7 counterexample: a statically-typed new_id argument referencing an
interface (`surface`) with no implementing variant does not abort expansion:
the macro generates successfully — new_id trait parameters are the plain
`wl::NewId` type (lib.rs:197/238) and the dispatch glue needs only the
schema's version for the referenced interface (lib.rs:107) — contradicting
the claim that every Object *or NewId* reference requires a non-external
binding and otherwise fails with an UnresolvedDependency error. -/
theorem C7_counterexample :
    server_protocol schemaG vsG
      = Except.ok ⟨"Compositor", [⟨"Compositor", [], 1⟩]⟩ := by decide

/-- C7 (amended): in the trait generation, an `object` argument referencing a
concrete interface with no implementing variant fails expansion with an error
naming the missing interface and the referencing member (lib.rs:183-185,
224-226) — not an `UnresolvedDependency { owner, missing }` — while a
`new_id` argument imposes no binding requirement at all (lib.rs:197/238). -/
theorem C7_object_requires_variant (vs : List Variant) (owner member : String)
    (a : DArg) (iref : String)
    (hk : a.kind = DataType.object) (hi : a.interface = some iref)
    (hmiss : ∀ w ∈ vs, w.name ≠ toCamel iref) :
    arg_trait_check vs owner member a
      = Except.error (GenError.missingImplementation iref member)
    ∧ ∀ b : DArg, b.kind = DataType.newId →
        arg_trait_check vs owner member b = Except.ok () := by
  constructor
  · obtain ⟨nm, k, ifc⟩ := a
    cases hk
    cases hi
    rcases hf : vs.find? (fun w => w.name = toCamel iref) with _ | w
    · simp [arg_trait_check, hf]
    · exfalso
      have hmem := List.mem_of_find?_eq_some hf
      have hp := List.find?_some hf
      simp only [decide_eq_true_eq] at hp
      exact hmiss w hmem hp
  · intro b hb
    obtain ⟨nm, k, ifc⟩ := b
    cases hb
    cases ifc <;> rfl

/-- C7 witness: with only a `Compositor` variant, an object argument
referencing `surface` fails the trait check naming `surface` and the
referencing request, while a new_id argument referencing the same missing
`surface` passes. -/
theorem C7_witness :
    arg_trait_check vsG "Compositor" "attach"
        ⟨"target", DataType.object, some "surface"⟩
      = Except.error (GenError.missingImplementation "surface" "attach")
    ∧ arg_trait_check vsG "Compositor" "attach"
        ⟨"id", DataType.newId, some "surface"⟩
      = Except.ok () := by
  have h := C7_object_requires_variant vsG "Compositor" "attach"
    ⟨"target", DataType.object, some "surface"⟩ "surface" rfl rfl (by decide)
  exact ⟨h.1, h.2 ⟨"id", DataType.newId, some "surface"⟩ rfl⟩

/-- C8: the (spec-modelled) enum wrapper carries one named constant per
Entry; `new(value)` succeeds for every declared Entry value and fails with
`NoVariant` carrying the enum name and the exact offending value for any
value with no matching Entry. -/
theorem C8_enum_new (e : DEnum) (v : Nat) :
    (enumConstants e).length = e.entries.length
    ∧ (∀ en ∈ e.entries, enum_new e en.value = Except.ok en.value)
    ∧ ((∀ en ∈ e.entries, en.value ≠ v) →
        enum_new e v = Except.error (DispatchError.noVariant e.name v)) := by
  refine ⟨by simp [enumConstants], ?_, ?_⟩
  · intro en hen
    unfold enum_new
    rcases hf : e.entries.find? (fun x => x.value = en.value) with _ | x
    · exfalso
      rw [List.find?_eq_none] at hf
      have := hf en hen
      simp at this
    · simp [hf]
  · intro hnone
    unfold enum_new
    rcases hf : e.entries.find? (fun x => x.value = v) with _ | x
    · simp [hf]
    · exfalso
      have hmem := List.mem_of_find?_eq_some hf
      have hp := List.find?_some hf
      simp only [decide_eq_true_eq] at hp
      exact hnone x hmem hp

/-- C8 witness: the `button_state` enum has two constants; `new(1)` yields
`pressed`'s value, `new(5)` fails with `NoVariant("button_state", 5)`. -/
theorem C8_witness :
    (enumConstants buttonStateEnum).length = 2
    ∧ enum_new buttonStateEnum 1 = Except.ok 1
    ∧ enum_new buttonStateEnum 5
        = Except.error (DispatchError.noVariant "button_state" 5) := by
  have h := C8_enum_new buttonStateEnum 5
  exact ⟨by decide, h.2.1 ⟨"pressed", 1⟩ (by decide), h.2.2 (by decide)⟩

/-- C10: the macro accepts the annotated enum only if some variant carries
the `display` attribute (it fails with the display panic otherwise); on
success the attribute is stripped from every emitted variant (each variant
carries it at most once), variant names and field layout are otherwise
preserved, and the generated `Default` impl constructs the first
`display`-tagged variant from its field's `Default::default()` value. -/
theorem C10_display (schema : List DInterface) (vs : List Variant)
    (hone : ∀ v ∈ vs, v.attrs.count "display" ≤ 1) :
    ((∀ v ∈ vs, "display" ∉ v.attrs) →
       server_protocol schema vs = Except.error GenError.displayMissing)
    ∧ (∀ g, server_protocol schema vs = Except.ok g →
        (vs.find? (fun v => decide ("display" ∈ v.attrs))).map Variant.name
            = some g.defaultVariantName
        ∧ g.emitted.all (fun v => decide ("display" ∉ v.attrs)) = true
        ∧ g.emitted.map Variant.name = vs.map Variant.name
        ∧ g.emitted.map Variant.fieldCount = vs.map Variant.fieldCount) := by
  constructor
  · intro hnone
    have hf : vs.find? (fun v => decide ("display" ∈ v.attrs)) = none := by
      rw [List.find?_eq_none]
      intro v hv
      simp [hnone v hv]
    simp only [server_protocol, display_variant, hf]
  · intro g hg
    unfold server_protocol at hg
    rcases hfind : display_variant vs with _ | dv
    · rw [hfind] at hg; exact absurd hg (by simp)
    · rw [hfind] at hg
      rcases h1 : vs.forM (variant_dispatch_check schema) with e1 | u1
      · rw [h1] at hg; exact absurd hg (by simp)
      · rw [h1] at hg
        rcases h2 : vs.forM into_protocol_check with e2 | u2
        · rw [h2] at hg; exact absurd hg (by simp)
        · rw [h2] at hg
          rcases h3 : vs.forM (interface_traits_check schema vs) with e3 | u3
          · rw [h3] at hg; exact absurd hg (by simp)
          · rw [h3] at hg
            have hgeq : g = ⟨dv.name, stripDisplay vs⟩ := by
              cases hg; rfl
            subst hgeq
            refine ⟨?_, ?_, ?_, ?_⟩
            · unfold display_variant at hfind
              rw [hfind]
              rfl
            · rw [List.all_eq_true]
              intro v hv
              rcases List.mem_map.mp hv with ⟨v0, hv0, hveq⟩
              subst hveq
              simp only [decide_eq_true_eq]
              exact removeFirstAttr_not_mem "display" v0.attrs (hone v0 hv0)
            · simp [stripDisplay, List.map_map]
            · simp [stripDisplay, List.map_map]

/-- C10 witness: for `{ Surface, #[display] Compositor }`, the generated
Default constructs `Compositor`, and the emitted enum carries no `display`
attribute. -/
theorem C10_witness :
    (vsW.find? (fun v => decide ("display" ∈ v.attrs))).map Variant.name
        = some "Compositor"
    ∧ (stripDisplay vsW).all (fun v => decide ("display" ∉ v.attrs)) = true := by
  have h := (C10_display schemaW vsW (by decide)).2
    ⟨"Compositor", stripDisplay vsW⟩ (by decide)
  exact ⟨h.1, h.2.1⟩

end WlMacro
